import Mathlib

/-!
Verification of the PSRFITS-to-Filterbank conversion pipeline
(`bin/your_fits2fil.py`): the chunk planner, the header/metadata adapter
(`make_sigproc_obj`), the append-or-create writer (`write_fil`) and the
streaming converter (`convert`), shallowly embedded in Lean 4.

Machine integers of the Python source are modelled as `Nat`/`Int`; floating
point sample values, frequencies and times as exact rationals; fallible code
returns `Except PyErr`.  Parts of the repository that the conversion script
calls but that are not part of this snapshot (the `your` reader class and the
`pysigproc` Filterbank writer) are modelled from the specification, each with
a doc comment saying so.
-/

/-- Python exceptions that the conversion code can raise or catch. -/
inductive PyErr where
  | fileNotFound : PyErr
  | indexError : PyErr
deriving DecidableEq, Repr

/-- Python list/array slicing `l[a:b]` (step 1): negative indices count from
the end, and both bounds are clamped into `[0, len l]`; out-of-range bounds
never raise. -/
def pySlice {α : Type} (l : List α) (a b : Int) : List α :=
  let n : Int := l.length
  let a' : Int := if a < 0 then max (n + a) 0 else min a n
  let b' : Int := if b < 0 then max (n + b) 0 else min b n
  (l.drop a'.toNat).take (b' - a').toNat

/-- Header of the source stream, mirroring the attributes of
`y.your_header` that `your_fits2fil.py` reads. -/
structure YourHeader where
  filename : String
  source_name : String
  foff : Rat
  nbits : Nat
  tsamp : Rat
  tstart : Rat
  ra_deg : Rat
  dec_deg : Rat
  native_nspectra : Nat
  dtype : String
deriving DecidableEq, Repr

/-- Modelled from the spec: the external reader abstraction (the `your`
reader class, not under `src/`).  A SourceStream carries its header, the
ordered channel-frequency array, and the full (samples x channels) data
matrix that `get_data` reads windows out of. -/
structure Your where
  your_header : YourHeader
  chan_freqs : List Rat
  data : List (List Rat)
deriving DecidableEq, Repr

/-- Modelled from the spec: `y.get_data(nstart, nsamp)` reads exactly
`nsamp` samples starting at sample `nstart` (spec section 4.3 step 3).
The subsequent `.astype(dtype)` cast of the source is the identity here,
since sample values are already exact rationals in the model. -/
def Your.get_data (y : Your) (nstart nsamp : Nat) : List (List Rat) :=
  (y.data.drop nstart).take nsamp

/-- Target-format header object, mirroring the attributes that
`make_sigproc_obj` sets on the `SigprocFile` object. -/
structure SigprocFile where
  rawdatafile : String
  source_name : String
  machine_id : Nat
  barycentric : Nat
  pulsarcentric : Nat
  telescope_id : Nat
  data_type : Nat
  nchans : Nat
  foff : Rat
  fch1 : Rat
  nbeams : Nat
  ibeam : Nat
  nbits : Nat
  tsamp : Rat
  tstart : Rat
  nifs : Nat
  src_raj : Rat
  src_dej : Rat
  az_start : Int
  za_start : Int
deriving DecidableEq, Repr

/-- Modelled from the spec: astropy's sexagesimal decomposition
(`Angle.hms` / `Angle.dms`) of a quantity `t` (already in hours for right
ascension, in degrees for declination): the sign is carried on every
component, and the magnitudes satisfy `|t| = d + m/60 + s/3600` with
`d = floor |t|` and `m = floor` of the minute part. -/
def sexagesimal (t : Rat) : Int × Int × Rat :=
  let sgn : Rat := if t < 0 then -1 else 1
  let x : Rat := |t|
  let d : Int := ⌊x⌋
  let m : Int := ⌊(x - d) * 60⌋
  let s : Rat := ((x - d) * 60 - m) * 60
  (if t < 0 then -d else d, if t < 0 then -m else m, sgn * s)

/-- Rounding to 4 decimal places, as the `{...:07.4f}` format specifier does
for the seconds field (for the in-range, exactly representable inputs of the
claims the rounding mode is immaterial). -/
def round4 (x : Rat) : Rat := (round (x * 10000) : Int) / 10000

/-- Numeric value of the packed string
`f'{int(d):02d}{np.abs(int(m)):02d}{np.abs(s):07.4f}'` of
`make_sigproc_obj`: the sign survives only through the integer
(degree/hour) component, minutes and seconds enter as absolute magnitudes
(faithful for components in the rendered widths, i.e. `|m| < 100`,
`|s| < 100`). -/
def packCoord (c : Int × Int × Rat) : Rat :=
  let mag : Rat := (c.1.natAbs : Rat) * 10000 + (c.2.1.natAbs : Rat) * 100 + round4 |c.2.2|
  if c.1 < 0 then -mag else mag

/-- The header/metadata adapter `make_sigproc_obj(filfile, y, nchans,
chan_freq)` of `your_fits2fil.py`.  It reads `chan_freq[1]` for `fch1`,
which raises `IndexError` when the slice has fewer than two entries; all
other attribute assignments are total.  `src_raj`/`src_dej` pack the
sexagesimal decomposition of `ra_deg/15` hours and `dec_deg` degrees. -/
def make_sigproc_obj (filfile : String) (y : Your) (nchans : Nat)
    (chan_freq : List Rat) : Except PyErr SigprocFile :=
  match chan_freq.get? 1 with
  | none => .error .indexError
  | some f1 =>
    .ok
      { rawdatafile := filfile
        source_name := y.your_header.source_name
        machine_id := 0
        barycentric := 0
        pulsarcentric := 0
        telescope_id := 6
        data_type := 0
        nchans := nchans
        foff := y.your_header.foff
        fch1 := f1
        nbeams := 1
        ibeam := 0
        nbits := y.your_header.nbits
        tsamp := y.your_header.tsamp
        tstart := y.your_header.tstart
        nifs := 1
        src_raj := packCoord (sexagesimal (y.your_header.ra_deg / 15))
        src_dej := packCoord (sexagesimal y.your_header.dec_deg)
        az_start := -1
        za_start := -1 }

/-- Modelled from the spec: the target format's fixed-size header block;
the spec couples the writer's size threshold to the header size (sections
4.4 and 6), so the modelled `write_header` emits exactly 8192 bytes. -/
def HEADER_SIZE : Nat := 8192

/-- Numeric fields of the header object, in declaration order, as the
serialization prefix of the modelled header block. -/
def headerFields (fo : SigprocFile) : List Rat :=
  [(fo.machine_id : Rat), (fo.barycentric : Rat), (fo.pulsarcentric : Rat),
   (fo.telescope_id : Rat), (fo.data_type : Rat), (fo.nchans : Rat),
   fo.foff, fo.fch1, (fo.nbeams : Rat), (fo.ibeam : Rat), (fo.nbits : Rat),
   fo.tsamp, fo.tstart, (fo.nifs : Rat), fo.src_raj, fo.src_dej,
   (fo.az_start : Rat), (fo.za_start : Rat)]

/-- Modelled from the spec: `fil_obj.write_header(filfile)` (pysigproc, not
under `src/`) writes the fixed-size header block, replacing any previous
contents of the file. -/
def headerBytes (fo : SigprocFile) : List Rat :=
  headerFields fo ++ List.replicate (HEADER_SIZE - (headerFields fo).length) 0

/-- Python `os.path.split`: split a path at its last separator. -/
def os_path_split (p : String) : String × String :=
  let parts := p.splitOn "/"
  (String.intercalate "/" parts.dropLast, parts.getLastD "")

/-- Output filename derivation of `write_fil` when no explicit name is
given: drop the extension, drop the final underscore-separated segment of
the basename, and append `.fil`. -/
def defaultFilName (orig_basename : String) : String :=
  String.intercalate "_" (((orig_basename.splitOn ".").headD "").splitOn "_").dropLast ++ ".fil"

/-- Resolution of the output path `outdir + '/' + filename` at the top of
`write_fil`, with the defaults the source computes from
`y.your_header.filename`. -/
def resolvePath (y : Your) (filename outdir : Option String) : String :=
  let sp := os_path_split y.your_header.filename
  let fn := match filename with
    | some f => f
    | none => defaultFilName sp.2
  let od := match outdir with
    | some o => o
    | none => sp.1
  od ++ "/" ++ fn

/-- The append-or-create writer `write_fil(data, y, nchans, chan_freq,
filename, outdir)` of `your_fits2fil.py`.  The on-disk state of the single
output path is `fs` (`none` = absent): `os.stat` on an absent path raises
`FileNotFoundError`, which the `except` arm catches by constructing and
writing a header and appending; on a present file the size check selects
append-only (size > 8192) or header-rewrite-then-append (size <= 8192).
Appending flattens the (samples x channels) chunk, per the spec's
contiguous-sample-records output layout. -/
def write_fil (data : List (List Rat)) (y : Your) (nchans : Nat)
    (chan_freq : List Rat) (filename outdir : Option String)
    (fs : Option (List Rat)) : Except PyErr (List Rat) :=
  let filfile := resolvePath y filename outdir
  let attempt : Except PyErr (List Rat) :=
    match fs with
    | none => .error .fileNotFound
    | some content =>
      if 8192 < content.length then
        .ok (content ++ data.flatten)
      else
        match make_sigproc_obj filfile y nchans chan_freq with
        | .error e => .error e
        | .ok fo => .ok (headerBytes fo ++ data.flatten)
  match attempt with
  | .error .fileNotFound =>
    match make_sigproc_obj filfile y nchans chan_freq with
    | .error e => .error e
    | .ok fo => .ok (headerBytes fo ++ data.flatten)
  | r => r

/-- The fixed read-window size of `convert`: `interval = 4096 * 24`. -/
def interval : Nat := 4096 * 24

/-- Loop count of the chunk planner in `convert`:
`nloops = 1 + native_nspectra // interval` when `native_nspectra >
interval`, else `1`. -/
def nloops (N : Nat) : Nat :=
  if interval < N then 1 + N / interval else 1

/-- Chunk start offsets `np.arange(0, interval * nloops, interval)`. -/
def nstarts (N : Nat) : List Nat :=
  (List.range (nloops N)).map (fun i => i * interval)

/-- Chunk sizes `np.full(nloops, interval)` with
`nsamps[-1] = native_nspectra % interval` when the remainder is nonzero. -/
def nsamps (N : Nat) : List Nat :=
  let base := List.replicate (nloops N) interval
  if N % interval ≠ 0 then base.set (nloops N - 1) (N % interval) else base

/-- The planner's ordered chunk sequence: the `(nstart, nsamp)` pairs the
read loop of `convert` iterates over (`zip(nstarts, nsamps)`). -/
def chunks (N : Nat) : List (Nat × Nat) :=
  (nstarts N).zip (nsamps N)

/-- Channel-window resolution at the top of `convert`: `min_c =
int(np.min(c))`, `max_c = int(np.max(c))` when a range is supplied, else
the full range `[0, len(chan_freqs))`. -/
def resolveWindow (y : Your) (c : Option (Int × Int)) : Int × Int :=
  match c with
  | some p => (min p.1 p.2, max p.1 p.2)
  | none => (0, (y.chan_freqs.length : Int))

/-- Channel-axis restriction `data[:, min_c:max_c]` of one read chunk. -/
def sliceRows (data : List (List Rat)) (a b : Int) : List (List Rat) :=
  data.map (fun row => pySlice row a b)

/-- The read-then-write loop of `convert`: for each planned `(nstart,
nsamp)` chunk in order, read the window, restrict the channel axis, and
hand it to `write_fil`; the resulting file contents are threaded to the
next iteration (the writer re-reads disk state each call). -/
def convertLoop (y : Your) (min_c max_c : Int) (nchans : Nat)
    (chan_freq : List Rat) (filename outdir : Option String) :
    List (Nat × Nat) → Option (List Rat) → Except PyErr (Option (List Rat))
  | [], fs => .ok fs
  | (nstart, nsamp) :: rest, fs =>
    let data := sliceRows (y.get_data nstart nsamp) min_c max_c
    match write_fil data y nchans chan_freq filename outdir fs with
    | .error e => .error e
    | .ok c => convertLoop y min_c max_c nchans chan_freq filename outdir rest (some c)

/-- The streaming converter `convert(f, c, outdir, filfile)` of
`your_fits2fil.py`, as a function of the initial on-disk state `fs` of the
output path (`none` = the file does not exist yet).  It resolves the
channel window, slices the channel-frequency array, plans the chunks and
runs the read-then-write loop; the result is the final file contents. -/
def convert (y : Your) (c : Option (Int × Int)) (outdir filfile : Option String)
    (fs : Option (List Rat)) : Except PyErr (Option (List Rat)) :=
  let mc := resolveWindow y c
  let chan_freq := pySlice y.chan_freqs mc.1 mc.2
  let nchans := chan_freq.length
  convertLoop y mc.1 mc.2 nchans chan_freq filfile outdir
    (chunks y.your_header.native_nspectra) fs

/-! ### Chunk planner lemmas -/

theorem nloops_pos (N : Nat) : 0 < nloops N := by
  unfold nloops interval; split <;> omega

theorem replicate_set_eq_map (a b : Nat) :
    ∀ (n j : Nat), (List.replicate n a).set j b =
      (List.range n).map (fun i => if i = j then b else a) := by
  intro n
  induction n with
  | zero => intro j; rfl
  | succ n ih =>
    intro j
    rw [List.replicate_succ, List.range_succ_eq_map]
    cases j with
    | zero =>
      simp only [List.set_cons_zero, List.map_cons, List.map_map, if_pos rfl]
      congr 1
      have hc : ((fun i => if i = 0 then b else a) ∘ Nat.succ) = fun _ : Nat => a :=
        funext fun i => by simp
      rw [hc, List.map_const', List.length_range]
    | succ j =>
      rw [List.set_cons_succ, ih j]
      simp only [List.map_cons, List.map_map]
      congr 1
      exact List.map_congr_left fun i _ => by
        simp [Nat.succ_eq_add_one, Nat.add_right_cancel_iff]

theorem nsamps_eq_map (N : Nat) :
    nsamps N = (List.range (nloops N)).map
      (fun i => if i = nloops N - 1 ∧ N % interval ≠ 0 then N % interval else interval) := by
  unfold nsamps
  by_cases h : N % interval = 0
  · simp only [h, ne_eq, not_true_eq_false, if_false, and_false,
      List.map_const', List.length_range, ite_false]
  · simp only [h, ne_eq, not_false_eq_true, if_true, and_true, List.length_replicate]
    exact replicate_set_eq_map interval (N % interval) (nloops N) (nloops N - 1)

theorem chunks_eq_map (N : Nat) :
    chunks N = (List.range (nloops N)).map
      (fun i => (i * interval,
        if i = nloops N - 1 ∧ N % interval ≠ 0 then N % interval else interval)) := by
  rw [chunks, nstarts, nsamps_eq_map, List.zip_map']

theorem chunks_of_le {N : Nat} (h0 : 0 < N) (hle : N ≤ interval) :
    chunks N = [(0, N)] := by
  have hn : nloops N = 1 := by unfold nloops; rw [if_neg (by omega)]
  rw [chunks_eq_map, hn]
  rw [show List.range 1 = [0] from rfl]
  rcases eq_or_lt_of_le hle with heq | hlt
  · simp [heq, Nat.mod_self]
  · simp [Nat.mod_eq_of_lt hlt, h0.ne']

theorem chunks_fst_pairwise (N : Nat) :
    ((chunks N).map Prod.fst).Pairwise (· < ·) := by
  rw [chunks_eq_map, List.map_map]
  refine List.Pairwise.map _ ?_ (List.pairwise_lt_range (nloops N))
  intro a b hab
  simpa using mul_lt_mul_of_pos_right hab (show 0 < interval by decide)

theorem chunks_chain (N : Nat) :
    (chunks N).Chain' (fun p q => p.1 + p.2 = q.1) := by
  rw [chunks_eq_map, List.chain'_map]
  obtain ⟨m, hm⟩ : ∃ m, nloops N = m + 1 :=
    ⟨nloops N - 1, (Nat.succ_pred_eq_of_pos (nloops_pos N)).symm⟩
  rw [hm]
  rw [List.chain'_range_succ]
  intro i hi
  have hni : ¬ (i = m + 1 - 1 ∧ N % interval ≠ 0) := by
    rintro ⟨h1, -⟩; omega
  rw [if_neg hni, Nat.succ_eq_add_one]
  ring

theorem chunks_head (N : Nat) : ((chunks N).head?).map Prod.fst = some 0 := by
  rw [chunks_eq_map]
  obtain ⟨m, hm⟩ : ∃ m, nloops N = m + 1 :=
    ⟨nloops N - 1, (Nat.succ_pred_eq_of_pos (nloops_pos N)).symm⟩
  rw [hm, List.range_succ_eq_map]
  simp

theorem chunks_of_rem {N : Nat} (hgt : interval < N) (hr : N % interval ≠ 0) :
    chunks N = (List.range (N / interval)).map (fun i => (i * interval, interval))
      ++ [(N / interval * interval, N % interval)] := by
  have hn : nloops N = N / interval + 1 := by
    unfold nloops; rw [if_pos hgt, Nat.add_comm]
  rw [chunks_eq_map, hn, List.range_succ, List.map_append]
  congr 1
  · refine List.map_congr_left fun i hi => ?_
    have hne : i ≠ N / interval := by rw [List.mem_range] at hi; omega
    simp [Nat.add_sub_cancel, hne]
  · simp [hr]

theorem chunks_of_dvd {N : Nat} (hgt : interval < N) (hr : N % interval = 0) :
    chunks N = (List.range (N / interval + 1)).map (fun i => (i * interval, interval)) := by
  have hn : nloops N = N / interval + 1 := by
    unfold nloops; rw [if_pos hgt, Nat.add_comm]
  rw [chunks_eq_map, hn]
  refine List.map_congr_left fun i _ => ?_
  simp [hr]

theorem sum_map_snd_const (k : Nat) :
    (((List.range k).map (fun i => (i * interval, interval))).map Prod.snd).sum
      = k * interval := by
  rw [List.map_map]
  rw [show (Prod.snd ∘ fun i => (i * interval, interval)) = (fun _ => interval) from rfl]
  rw [List.map_const', List.length_range, List.sum_const_nat]

theorem chunks_sum_of_rem {N : Nat} (hgt : interval < N) (hr : N % interval ≠ 0) :
    ((chunks N).map Prod.snd).sum = N := by
  rw [chunks_of_rem hgt hr, List.map_append, List.sum_append, sum_map_snd_const]
  simp only [List.map_cons, List.map_nil, List.sum_cons, List.sum_nil, add_zero]
  unfold interval
  omega

theorem chunks_sum_of_dvd {N : Nat} (hgt : interval < N) (hr : N % interval = 0) :
    ((chunks N).map Prod.snd).sum = N + interval := by
  rw [chunks_of_dvd hgt hr, sum_map_snd_const]
  unfold interval at *
  omega

/-- C1: for every total sample count `N > 0` that is at most the window
`W = 4096 * 24` or not an exact multiple of it, the planner's chunks have
strictly increasing start offsets, are contiguous (each start is the
previous start plus its size, beginning at 0) hence non-overlapping, and
their sizes sum to exactly `N`: they partition `[0, N)` exactly once.
When `N` is an exact multiple of `W` greater than `W`, the floor-based
loop-count formula emits one extra trailing chunk of size `W`, and the
sizes sum to `N + W` instead. -/
theorem chunk_coverage (N : Nat) (h0 : 0 < N) :
    ((N ≤ interval ∨ N % interval ≠ 0) →
      ((chunks N).map Prod.snd).sum = N ∧
      ((chunks N).map Prod.fst).Pairwise (· < ·) ∧
      (chunks N).Chain' (fun p q => p.1 + p.2 = q.1) ∧
      ((chunks N).head?).map Prod.fst = some 0) ∧
    (interval < N → N % interval = 0 →
      ((chunks N).map Prod.snd).sum = N + interval) := by
  constructor
  · intro h
    refine ⟨?_, chunks_fst_pairwise N, chunks_chain N, chunks_head N⟩
    rcases le_or_lt N interval with hle | hgt
    · rw [chunks_of_le h0 hle]; simp
    · exact chunks_sum_of_rem hgt (h.resolve_left (by omega))
  · intro hgt hr
    exact chunks_sum_of_dvd hgt hr

/-- Witness for C1 at total sample count 5. -/
theorem chunk_coverage_witness :
    0 < 5 ∧
    (((5 : Nat) ≤ interval ∨ 5 % interval ≠ 0) →
      ((chunks 5).map Prod.snd).sum = 5 ∧
      ((chunks 5).map Prod.fst).Pairwise (· < ·) ∧
      (chunks 5).Chain' (fun p q => p.1 + p.2 = q.1) ∧
      ((chunks 5).head?).map Prod.fst = some 0) ∧
    (interval < 5 → 5 % interval = 0 →
      ((chunks 5).map Prod.snd).sum = 5 + interval) :=
  ⟨by decide, chunk_coverage 5 (by decide)⟩

/-- C1 counterexample: at `N = 2 * interval` (an exact multiple of the
window greater than the window) the planner's chunk sizes do not sum to
`N`, refuting the claim as stated for every `N > 0`. -/
theorem chunk_coverage_cex :
    0 < 2 * interval ∧ ((chunks (2 * interval)).map Prod.snd).sum ≠ 2 * interval := by
  decide

/-- C6 (amended with `N > 0`): for every positive total sample count at
most the window size, the planner yields exactly one chunk, starting at
offset 0, of size exactly `N`. -/
theorem single_chunk_small (N : Nat) (h0 : 0 < N) (hle : N ≤ interval) :
    chunks N = [(0, N)] :=
  chunks_of_le h0 hle

/-- Witness for C6 at total sample count 7. -/
theorem single_chunk_small_witness :
    0 < 7 ∧ (7 : Nat) ≤ interval ∧ chunks 7 = [(0, 7)] :=
  ⟨by decide, by decide, single_chunk_small 7 (by decide) (by decide)⟩

/-- C6 counterexample: at total sample count 0 (which is `≤ W`) the planner
still yields one chunk starting at 0, but its size is the full window
`interval`, not the total sample count 0. -/
theorem single_chunk_small_cex :
    (0 : Nat) ≤ interval ∧ chunks 0 = [(0, interval)] ∧ chunks 0 ≠ [(0, 0)] := by
  decide

/-! ### Header adapter and writer lemmas -/

theorem headerFields_length (fo : SigprocFile) : (headerFields fo).length = 18 := rfl

theorem headerBytes_length (fo : SigprocFile) : (headerBytes fo).length = HEADER_SIZE := by
  rw [headerBytes, List.length_append, List.length_replicate, headerFields_length]
  norm_num [HEADER_SIZE]

theorem make_sigproc_obj_ne_fnf (filfile : String) (y : Your) (nchans : Nat)
    (chan_freq : List Rat) :
    make_sigproc_obj filfile y nchans chan_freq ≠ .error .fileNotFound := by
  rw [make_sigproc_obj]
  cases chan_freq.get? 1 <;> simp

theorem make_sigproc_obj_err (filfile : String) (y : Your) (nchans : Nat)
    (chan_freq : List Rat) (h : chan_freq.length ≤ 1) :
    make_sigproc_obj filfile y nchans chan_freq = .error .indexError := by
  rw [make_sigproc_obj, List.get?_eq_none.mpr h]

theorem make_sigproc_obj_fields (filfile : String) (y : Your) (nchans : Nat)
    (chan_freq : List Rat) (f1 : Rat) (h : chan_freq.get? 1 = some f1) :
    ∃ fo, make_sigproc_obj filfile y nchans chan_freq = .ok fo ∧
      fo.nchans = nchans ∧ fo.fch1 = f1 ∧
      fo.src_raj = packCoord (sexagesimal (y.your_header.ra_deg / 15)) ∧
      fo.src_dej = packCoord (sexagesimal y.your_header.dec_deg) := by
  rw [make_sigproc_obj, h]
  exact ⟨_, rfl, rfl, rfl, rfl, rfl⟩

theorem write_fil_append (data : List (List Rat)) (y : Your) (nchans : Nat)
    (chan_freq : List Rat) (filename outdir : Option String) (content : List Rat)
    (h : 8192 < content.length) :
    write_fil data y nchans chan_freq filename outdir (some content) =
      .ok (content ++ data.flatten) := by
  simp [write_fil, h]

theorem write_fil_stale (data : List (List Rat)) (y : Your) (nchans : Nat)
    (chan_freq : List Rat) (filename outdir : Option String) (content : List Rat)
    (h : content.length ≤ 8192) :
    write_fil data y nchans chan_freq filename outdir (some content) =
      (make_sigproc_obj (resolvePath y filename outdir) y nchans chan_freq).map
        (fun fo => headerBytes fo ++ data.flatten) := by
  simp only [write_fil]
  rw [if_neg (Nat.not_lt.mpr h)]
  cases hm : make_sigproc_obj (resolvePath y filename outdir) y nchans chan_freq with
  | ok fo => rfl
  | error e =>
    cases e with
    | fileNotFound => exact absurd hm (make_sigproc_obj_ne_fnf _ _ _ _)
    | indexError => rfl

theorem write_fil_absent (data : List (List Rat)) (y : Your) (nchans : Nat)
    (chan_freq : List Rat) (filename outdir : Option String) :
    write_fil data y nchans chan_freq filename outdir none =
      (make_sigproc_obj (resolvePath y filename outdir) y nchans chan_freq).map
        (fun fo => headerBytes fo ++ data.flatten) := by
  simp only [write_fil]
  cases hm : make_sigproc_obj (resolvePath y filename outdir) y nchans chan_freq with
  | ok fo => rfl
  | error e => cases e <;> rfl

/-- Concrete sample source stream used by the witness theorems. -/
def ySample : Your :=
  { your_header :=
      { filename := "data/obs_0001.fits"
        source_name := "J0000+0000"
        foff := -1/2
        nbits := 8
        tsamp := 1/1000
        tstart := 58000
        ra_deg := 180
        dec_deg := -91/2
        native_nspectra := 3
        dtype := "uint8" }
    chan_freqs := [1000, 1999/2]
    data := [[1, 2], [3, 4], [5, 6]] }

/-- C3: on a present output file, the writer appends the chunk directly
when the size exceeds 8192 (the equation holds for every `chan_freq`, so no
header is constructed, and the prior contents — header included — are
untouched); when the size is at most 8192 it constructs a fresh header,
writes it, and appends the chunk. -/
theorem writer_branches (data : List (List Rat)) (y : Your) (nchans : Nat)
    (chan_freq : List Rat) (filename outdir : Option String) (content : List Rat) :
    (8192 < content.length →
      write_fil data y nchans chan_freq filename outdir (some content) =
        .ok (content ++ data.flatten)) ∧
    (content.length ≤ 8192 →
      write_fil data y nchans chan_freq filename outdir (some content) =
        (make_sigproc_obj (resolvePath y filename outdir) y nchans chan_freq).map
          (fun fo => headerBytes fo ++ data.flatten)) :=
  ⟨write_fil_append data y nchans chan_freq filename outdir content,
   write_fil_stale data y nchans chan_freq filename outdir content⟩

/-- Witness for C3: both writer branches evaluated on concrete states. -/
theorem writer_branches_witness :
    (8192 < (List.replicate 8193 (0 : Rat)).length ∧
      write_fil [[1]] ySample 2 [1000, 1999/2] none none
          (some (List.replicate 8193 0)) =
        .ok (List.replicate 8193 0 ++ [[(1 : Rat)]].flatten)) ∧
    (([(5 : Rat)]).length ≤ 8192 ∧
      write_fil [[1]] ySample 2 [1000, 1999/2] none none (some [5]) =
        (make_sigproc_obj (resolvePath ySample none none) ySample 2 [1000, 1999/2]).map
          (fun fo => headerBytes fo ++ [[(1 : Rat)]].flatten)) :=
  ⟨⟨by rw [List.length_replicate]; norm_num,
    (writer_branches [[1]] ySample 2 [1000, 1999/2] none none
      (List.replicate 8193 0)).1 (by rw [List.length_replicate]; norm_num)⟩,
   ⟨by simp, (writer_branches [[1]] ySample 2 [1000, 1999/2] none none [5]).2 (by simp)⟩⟩

/-- C4: invoking the writer on a nonexistent path never surfaces the
file-not-found error from the size check: it is caught, and the call
behaves exactly like the Absent branch — construct the header, write it,
append the chunk; with a channel-frequency slice of width at least 2 the
call succeeds outright with header-then-data contents. -/
theorem writer_missing_path (data : List (List Rat)) (y : Your) (nchans : Nat)
    (chan_freq : List Rat) (filename outdir : Option String) :
    write_fil data y nchans chan_freq filename outdir none ≠ .error .fileNotFound ∧
    write_fil data y nchans chan_freq filename outdir none =
      (make_sigproc_obj (resolvePath y filename outdir) y nchans chan_freq).map
        (fun fo => headerBytes fo ++ data.flatten) ∧
    (2 ≤ chan_freq.length →
      ∃ fo, make_sigproc_obj (resolvePath y filename outdir) y nchans chan_freq = .ok fo ∧
        write_fil data y nchans chan_freq filename outdir none =
          .ok (headerBytes fo ++ data.flatten)) := by
  refine ⟨?_, write_fil_absent data y nchans chan_freq filename outdir, ?_⟩
  · rw [write_fil_absent data y nchans chan_freq filename outdir]
    cases hm : make_sigproc_obj (resolvePath y filename outdir) y nchans chan_freq with
    | ok fo => simp [Except.map]
    | error e =>
      cases e with
      | fileNotFound => exact absurd hm (make_sigproc_obj_ne_fnf _ _ _ _)
      | indexError => simp [Except.map]
  · intro h2
    obtain ⟨f1, hf1⟩ : ∃ f1, chan_freq.get? 1 = some f1 := by
      cases hg : chan_freq.get? 1 with
      | none => rw [List.get?_eq_none] at hg; omega
      | some f1 => exact ⟨f1, rfl⟩
    obtain ⟨fo, hfo, -⟩ := make_sigproc_obj_fields (resolvePath y filename outdir)
      y nchans chan_freq f1 hf1
    refine ⟨fo, hfo, ?_⟩
    rw [write_fil_absent data y nchans chan_freq filename outdir, hfo]
    rfl

/-- Witness for C4 on a concrete source and chunk. -/
theorem writer_missing_path_witness :
    write_fil [[1]] ySample 2 [1000, 1999/2] none none none ≠ .error .fileNotFound ∧
    2 ≤ ([1000, 1999/2] : List Rat).length ∧
    ∃ fo, make_sigproc_obj (resolvePath ySample none none) ySample 2 [1000, 1999/2] = .ok fo ∧
      write_fil [[1]] ySample 2 [1000, 1999/2] none none none =
        .ok (headerBytes fo ++ [[(1 : Rat)]].flatten) :=
  ⟨(writer_missing_path [[1]] ySample 2 [1000, 1999/2] none none).1,
   by simp,
   (writer_missing_path [[1]] ySample 2 [1000, 1999/2] none none).2.2 (by simp)⟩

/-- C5: a first writer call on an absent path with a nonzero-size chunk
creates a file of size over 8192 (the 8192-byte header plus the chunk), so
a second call takes the append-only branch — the result is the first file
contents with the second chunk appended — and the header bytes (the first
8192 entries) are identical before and after the second call. -/
theorem idempotent_header (data1 data2 : List (List Rat)) (y : Your) (nchans : Nat)
    (chan_freq : List Rat) (filename outdir : Option String)
    (h2 : 2 ≤ chan_freq.length) (hnz : data1.flatten ≠ []) :
    ∃ c1, write_fil data1 y nchans chan_freq filename outdir none = .ok c1 ∧
      8192 < c1.length ∧
      write_fil data2 y nchans chan_freq filename outdir (some c1) =
        .ok (c1 ++ data2.flatten) ∧
      (c1 ++ data2.flatten).take 8192 = c1.take 8192 := by
  obtain ⟨-, -, hok⟩ := writer_missing_path data1 y nchans chan_freq filename outdir
  obtain ⟨fo, -, hw⟩ := hok h2
  refine ⟨headerBytes fo ++ data1.flatten, hw, ?_, ?_, ?_⟩
  · rw [List.length_append, headerBytes_length]
    have : 0 < data1.flatten.length := List.length_pos.mpr hnz
    unfold HEADER_SIZE
    omega
  · exact write_fil_append data2 y nchans chan_freq filename outdir _
      (by rw [List.length_append, headerBytes_length]
          have : 0 < data1.flatten.length := List.length_pos.mpr hnz
          unfold HEADER_SIZE
          omega)
  · have hlen : 8192 ≤ (headerBytes fo ++ data1.flatten).length := by
      rw [List.length_append, headerBytes_length]
      unfold HEADER_SIZE
      omega
    rw [List.take_append_of_le_length hlen]

/-- Witness for C5 on a concrete source and chunks. -/
theorem idempotent_header_witness :
    2 ≤ ([1000, 1999/2] : List Rat).length ∧
    ([[1, 2]] : List (List Rat)).flatten ≠ [] ∧
    ∃ c1, write_fil [[1, 2]] ySample 2 [1000, 1999/2] none none none = .ok c1 ∧
      8192 < c1.length ∧
      write_fil [[3, 4]] ySample 2 [1000, 1999/2] none none (some c1) =
        .ok (c1 ++ [[(3 : Rat), 4]].flatten) ∧
      (c1 ++ [[(3 : Rat), 4]].flatten).take 8192 = c1.take 8192 :=
  ⟨by simp, by simp,
   idempotent_header [[1, 2]] [[3, 4]] ySample 2 [1000, 1999/2] none none
     (by simp) (by simp)⟩

/-! ### First-channel frequency, window width, coordinates -/

/-- Concrete source with three distinct channel frequencies, exhibiting
which sliced entry the adapter assigns to the first-channel frequency. -/
def yC2 : Your :=
  { your_header :=
      { filename := "data/scan_0002.fits"
        source_name := "SRC"
        foff := 1
        nbits := 8
        tsamp := 1/1000
        tstart := 58000
        ra_deg := 0
        dec_deg := 0
        native_nspectra := 1
        dtype := "uint8" }
    chan_freqs := [1000, 1100, 1200]
    data := [[7, 7, 7]] }

/-- C2 (code bug): for the valid full window `[0, 3)` over channel
frequencies `[1000, 1100, 1200]`, the header's channel count is `3 =
max_c - min_c` as claimed, but its first-channel frequency is
`chan_freq[1] = 1100` — the source frequency at index `min_c + 1` — and
not the claimed `chan_freqs[min_c] = 1000`: `make_sigproc_obj` reads
index 1 of the sliced array instead of index 0. -/
theorem fch1_index_bug :
    pySlice yC2.chan_freqs 0 3 = [1000, 1100, 1200] ∧
    yC2.chan_freqs.get? 0 = some 1000 ∧
    ∃ fo, make_sigproc_obj "out/scan.fil" yC2 (pySlice yC2.chan_freqs 0 3).length
        (pySlice yC2.chan_freqs 0 3) = .ok fo ∧
      fo.nchans = 3 ∧ fo.fch1 = 1100 ∧ fo.fch1 ≠ 1000 := by
  refine ⟨by decide, by decide, ?_⟩
  refine ⟨_, rfl, rfl, rfl, by norm_num⟩

theorem pySlice_length_of_valid {α : Type} (l : List α) (a b : Int)
    (h0 : 0 ≤ a) (hab : a ≤ b) (hb : b ≤ (l.length : Int)) :
    (pySlice l a b).length = (b - a).toNat := by
  simp only [pySlice]
  rw [if_neg (by omega : ¬ (a < 0)), if_neg (by omega : ¬ (b < 0)),
    min_eq_left (le_trans hab hb), min_eq_left hb,
    List.length_take, List.length_drop]
  omega

/-- C10: a channel-frequency slice of width 1 makes header construction
fail with IndexError, because the first-channel frequency is read from
index 1 of the slice; every successful header construction therefore
requires a slice of width at least 2; and a valid channel window of width
exactly 1 (`max_c = min_c + 1`) produces exactly such a width-1 slice. -/
theorem width_one_header_fails (filfile : String) (y : Your) (nchans : Nat)
    (chan_freq : List Rat) :
    (chan_freq.length ≤ 1 →
      make_sigproc_obj filfile y nchans chan_freq = .error .indexError) ∧
    (∀ fo, make_sigproc_obj filfile y nchans chan_freq = .ok fo →
      2 ≤ chan_freq.length) ∧
    (∀ (l : List Rat) (a : Int), 0 ≤ a → a + 1 ≤ (l.length : Int) →
      (pySlice l a (a + 1)).length = 1) := by
  refine ⟨make_sigproc_obj_err filfile y nchans chan_freq, ?_, ?_⟩
  · intro fo hfo
    by_contra hlt
    rw [make_sigproc_obj_err filfile y nchans chan_freq (by omega)] at hfo
    exact Except.noConfusion hfo
  · intro l a h0 h1
    rw [pySlice_length_of_valid l a (a + 1) h0 (by omega) h1]
    omega

/-- Witness for C10: a width-1 slice fails, and a width-1 window slice has
length 1, at concrete inputs. -/
theorem width_one_header_fails_witness :
    (([(700 : Rat)]).length ≤ 1 ∧
      make_sigproc_obj "o.fil" ySample 1 [700] = .error .indexError) ∧
    (0 ≤ (1 : Int) ∧ (1 : Int) + 1 ≤ (([(5 : Rat), 6, 7]).length : Int) ∧
      (pySlice [(5 : Rat), 6, 7] 1 (1 + 1)).length = 1) :=
  ⟨⟨by decide, (width_one_header_fails "o.fil" ySample 1 [700]).1 (by decide)⟩,
   ⟨by decide, by decide,
    (width_one_header_fails "o.fil" ySample 1 [700]).2.2 [5, 6, 7] 1
      (by decide) (by decide)⟩⟩

theorem sexagesimal_twelve : sexagesimal 12 = (12, 0, 0) := by
  rw [sexagesimal]
  norm_num

theorem sexagesimal_neg_dec : sexagesimal (-91/2) = (-45, -30, 0) := by
  rw [sexagesimal]
  rw [show |(-91/2 : Rat)| = 91/2 by norm_num]
  norm_num [Int.fract]

theorem pack_raj_180 : packCoord (sexagesimal (180/15)) = 120000 := by
  rw [show (180 : Rat)/15 = 12 by norm_num, sexagesimal_twelve]
  norm_num [packCoord, round4]

theorem pack_dej_neg : packCoord (sexagesimal (-91/2)) = -453000 := by
  rw [sexagesimal_neg_dec]
  norm_num [packCoord, round4]

/-- C8: for a right ascension of exactly 180 degrees and a declination of
exactly −45.5 degrees, the packed coordinate fields follow the
DDMMSS.SSSS convention with the sign kept only on the integer component:
`src_raj = 120000` (12h 00m 00s) and `src_dej = -453000` (−45d 30m 00s). -/
theorem coordinate_encoding (filfile : String) (y : Your) (nchans : Nat)
    (chan_freq : List Rat) (fo : SigprocFile)
    (hra : y.your_header.ra_deg = 180) (hdec : y.your_header.dec_deg = -91/2)
    (hok : make_sigproc_obj filfile y nchans chan_freq = .ok fo) :
    fo.src_raj = 120000 ∧ fo.src_dej = -453000 := by
  obtain ⟨f1, hf1⟩ : ∃ f1, chan_freq.get? 1 = some f1 := by
    cases hg : chan_freq.get? 1 with
    | none =>
      rw [make_sigproc_obj, hg] at hok
      exact Except.noConfusion hok
    | some f1 => exact ⟨f1, rfl⟩
  obtain ⟨fo', hfo', -, -, hraj, hdej⟩ :=
    make_sigproc_obj_fields filfile y nchans chan_freq f1 hf1
  rw [hok] at hfo'
  obtain rfl : fo = fo' := Except.ok.inj hfo'
  rw [hraj, hdej, hra, hdec]
  exact ⟨pack_raj_180, pack_dej_neg⟩

/-- Witness for C8 on the concrete sample source (ra 180, dec −45.5). -/
theorem coordinate_encoding_witness :
    ySample.your_header.ra_deg = 180 ∧ ySample.your_header.dec_deg = -91/2 ∧
    ∃ fo, make_sigproc_obj "out.fil" ySample 2 [1000, 1999/2] = .ok fo ∧
      fo.src_raj = 120000 ∧ fo.src_dej = -453000 := by
  refine ⟨rfl, rfl, ?_⟩
  refine ⟨_, rfl, coordinate_encoding "out.fil" ySample 2 [1000, 1999/2] _ rfl rfl rfl⟩

/-! ### Channel-window clamping and the end-to-end run -/

theorem pySlice_all_of_le {α : Type} (l : List α) (a b : Int)
    (h0 : 0 ≤ a) (ha : a ≤ (l.length : Int)) (hb : (l.length : Int) ≤ b) :
    pySlice l a b = l.drop a.toNat := by
  simp only [pySlice]
  rw [if_neg (by omega : ¬ (a < 0)), if_neg (by omega : ¬ (b < 0)),
    min_eq_left ha, min_eq_right hb]
  apply List.take_of_length_le
  rw [List.length_drop]
  omega

theorem pySlice_full {α : Type} (l : List α) : pySlice l 0 (l.length : Int) = l := by
  rw [pySlice_all_of_le l 0 (l.length : Int) le_rfl (Int.natCast_nonneg _) le_rfl]
  simp

/-- Concrete source with 4 channels for the channel-range-misuse run. -/
def yC9 : Your :=
  { your_header :=
      { filename := "d/raw_0003.fits"
        source_name := "S"
        foff := 1
        nbits := 8
        tsamp := 1/100
        tstart := 59000
        ra_deg := 15
        dec_deg := 10
        native_nspectra := 3
        dtype := "uint8" }
    chan_freqs := [1, 2, 3, 4]
    data := [[9, 9, 9, 9], [9, 9, 9, 9], [9, 9, 9, 9]] }

/-- C9 counterexample: with 4 channels and the out-of-range window
`[0, 10)`, the conversion raises no indexing failure at the slicing step
(or anywhere): the slice silently clamps to all 4 channels and the whole
conversion run succeeds. -/
theorem channel_misuse_cex :
    pySlice yC9.chan_freqs 0 10 = [1, 2, 3, 4] ∧
    (pySlice yC9.chan_freqs 0 10).length = 4 ∧
    ∃ out, convert yC9 (some (0, 10)) (some "o") (some "x.fil") none = .ok (some out) := by
  refine ⟨by decide, by decide, ?_⟩
  exact ⟨_, rfl⟩

/-- C9 (amended): the conversion performs no validation of the requested
channel window, but no indexing failure arises at the slicing step either:
Python slice semantics clamp the window, so for a valid `min_c` and a
`max_c` past the end the resolved window is `(min_c, max_c)`, the
channel-frequency slice is everything from `min_c` on, and the computed
channel count is `total - min_c`.  (A failure can arise only later, at the
header's index-1 read, when the clamped slice has width below 2.) -/
theorem channel_window_clamped (y : Your) (a b : Int)
    (h0 : 0 ≤ a) (ha : a ≤ (y.chan_freqs.length : Int))
    (hb : (y.chan_freqs.length : Int) ≤ b) :
    resolveWindow y (some (a, b)) = (a, b) ∧
    pySlice y.chan_freqs a b = y.chan_freqs.drop a.toNat ∧
    (pySlice y.chan_freqs a b).length = y.chan_freqs.length - a.toNat := by
  refine ⟨?_, pySlice_all_of_le _ _ _ h0 ha hb, ?_⟩
  · have hab : a ≤ b := le_trans ha hb
    simp only [resolveWindow]
    rw [min_eq_left hab, max_eq_right hab]
  · rw [pySlice_all_of_le _ _ _ h0 ha hb, List.length_drop]

/-- Witness for C9 on the 4-channel source and window `[1, 10)`. -/
theorem channel_window_clamped_witness :
    0 ≤ (1 : Int) ∧ (1 : Int) ≤ (yC9.chan_freqs.length : Int) ∧
    (yC9.chan_freqs.length : Int) ≤ 10 ∧
    (resolveWindow yC9 (some (1, 10)) = (1, 10) ∧
     pySlice yC9.chan_freqs 1 10 = yC9.chan_freqs.drop (1 : Int).toNat ∧
     (pySlice yC9.chan_freqs 1 10).length = yC9.chan_freqs.length - (1 : Int).toNat) :=
  ⟨by decide, by decide, by decide,
   channel_window_clamped yC9 1 10 (by decide) (by decide) (by decide)⟩

theorem convertLoop_nil (y : Your) (min_c max_c : Int) (nchans : Nat)
    (chan_freq : List Rat) (filename outdir : Option String) (fs : Option (List Rat)) :
    convertLoop y min_c max_c nchans chan_freq filename outdir [] fs = .ok fs := rfl

theorem convertLoop_cons (y : Your) (min_c max_c : Int) (nchans : Nat)
    (chan_freq : List Rat) (filename outdir : Option String)
    (nstart nsamp : Nat) (rest : List (Nat × Nat)) (fs : Option (List Rat))
    (c : List Rat)
    (hw : write_fil (sliceRows (y.get_data nstart nsamp) min_c max_c) y nchans
        chan_freq filename outdir fs = .ok c) :
    convertLoop y min_c max_c nchans chan_freq filename outdir
        ((nstart, nsamp) :: rest) fs =
      convertLoop y min_c max_c nchans chan_freq filename outdir rest (some c) := by
  simp only [convertLoop]
  rw [hw]

theorem sliceRows_full (y : Your) (s n : Nat)
    (hrow : ∀ r ∈ y.data, r.length = y.chan_freqs.length) :
    sliceRows (y.get_data s n) 0 (y.chan_freqs.length : Int) = y.get_data s n := by
  have hrr : ∀ r ∈ y.get_data s n, pySlice r 0 (y.chan_freqs.length : Int) = r := by
    intro r hr
    have hmem : r ∈ y.data := by
      unfold Your.get_data at hr
      exact List.mem_of_mem_drop (List.mem_of_mem_take hr)
    rw [← hrow r hmem]
    exact pySlice_full r
  unfold sliceRows
  rw [List.map_congr_left hrr]
  simp

theorem chunks_98404 : chunks (4096 * 24 + 100) = [(0, 4096 * 24), (4096 * 24, 100)] := by
  decide

/-- C7: for a source with total sample count `4096*24 + 100` and window
`4096*24`, the planner yields exactly the 2 chunks `(0, 4096*24)` and
`(4096*24, 100)`; the converter, run with the full channel range on an
absent output path, issues exactly these two writer calls in order — the
first creates the file (header plus first chunk, leaving more than 8192
bytes), the second appends the second chunk — and the run's final file
contents are the first call's contents with the second chunk appended. -/
theorem end_to_end_two_chunks (y : Your) (filename outdir : Option String)
    (hN : y.your_header.native_nspectra = 4096 * 24 + 100)
    (hd : y.data.length = 4096 * 24 + 100)
    (hrow : ∀ r ∈ y.data, r.length = y.chan_freqs.length)
    (hch : 2 ≤ y.chan_freqs.length) :
    chunks y.your_header.native_nspectra = [(0, 4096 * 24), (4096 * 24, 100)] ∧
    ∃ fo c1,
      make_sigproc_obj (resolvePath y filename outdir) y y.chan_freqs.length
          y.chan_freqs = .ok fo ∧
      write_fil (y.get_data 0 (4096 * 24)) y y.chan_freqs.length y.chan_freqs
          filename outdir none = .ok c1 ∧
      c1 = headerBytes fo ++ (y.get_data 0 (4096 * 24)).flatten ∧
      8192 < c1.length ∧
      write_fil (y.get_data (4096 * 24) 100) y y.chan_freqs.length y.chan_freqs
          filename outdir (some c1) =
        .ok (c1 ++ (y.get_data (4096 * 24) 100).flatten) ∧
      convert y none outdir filename none =
        .ok (some (c1 ++ (y.get_data (4096 * 24) 100).flatten)) := by
  refine ⟨by rw [hN]; exact chunks_98404, ?_⟩
  obtain ⟨f1, hf1⟩ : ∃ f1, y.chan_freqs.get? 1 = some f1 := by
    cases hg : y.chan_freqs.get? 1 with
    | none => rw [List.get?_eq_none] at hg; omega
    | some f1 => exact ⟨f1, rfl⟩
  obtain ⟨fo, hfo, -, -, -, -⟩ := make_sigproc_obj_fields
    (resolvePath y filename outdir) y y.chan_freqs.length y.chan_freqs f1 hf1
  have hw1 : write_fil (y.get_data 0 (4096 * 24)) y y.chan_freqs.length
      y.chan_freqs filename outdir none =
      .ok (headerBytes fo ++ (y.get_data 0 (4096 * 24)).flatten) := by
    rw [write_fil_absent, hfo]
    rfl
  have hne : (y.get_data 0 (4096 * 24)).flatten ≠ [] := by
    intro hflat
    rw [List.flatten_eq_nil_iff] at hflat
    have hlen1 : 0 < (y.get_data 0 (4096 * 24)).length := by
      unfold Your.get_data
      rw [List.drop_zero, List.length_take]
      omega
    obtain ⟨r, hr⟩ := List.exists_mem_of_length_pos hlen1
    have hmem : r ∈ y.data := by
      unfold Your.get_data at hr
      exact List.mem_of_mem_drop (List.mem_of_mem_take hr)
    have : r.length = y.chan_freqs.length := hrow r hmem
    have : r = [] := hflat r hr
    subst this
    simp at *
    omega
  have hlen : 8192 < (headerBytes fo ++ (y.get_data 0 (4096 * 24)).flatten).length := by
    rw [List.length_append, headerBytes_length]
    have : 0 < (y.get_data 0 (4096 * 24)).flatten.length := List.length_pos.mpr hne
    unfold HEADER_SIZE
    omega
  have hw2 : write_fil (y.get_data (4096 * 24) 100) y y.chan_freqs.length
      y.chan_freqs filename outdir
      (some (headerBytes fo ++ (y.get_data 0 (4096 * 24)).flatten)) =
      .ok ((headerBytes fo ++ (y.get_data 0 (4096 * 24)).flatten) ++
        (y.get_data (4096 * 24) 100).flatten) :=
    write_fil_append _ y y.chan_freqs.length y.chan_freqs filename outdir _ hlen
  refine ⟨fo, headerBytes fo ++ (y.get_data 0 (4096 * 24)).flatten,
    hfo, hw1, rfl, hlen, hw2, ?_⟩
  unfold convert
  simp only [resolveWindow]
  rw [pySlice_full, hN, chunks_98404]
  rw [convertLoop_cons y 0 (y.chan_freqs.length : Int) y.chan_freqs.length
    y.chan_freqs filename outdir 0 (4096 * 24) _ none
    (headerBytes fo ++ (y.get_data 0 (4096 * 24)).flatten)
    (by rw [sliceRows_full y 0 (4096 * 24) hrow]; exact hw1)]
  rw [convertLoop_cons y 0 (y.chan_freqs.length : Int) y.chan_freqs.length
    y.chan_freqs filename outdir (4096 * 24) 100 [] _
    ((headerBytes fo ++ (y.get_data 0 (4096 * 24)).flatten) ++
      (y.get_data (4096 * 24) 100).flatten)
    (by rw [sliceRows_full y (4096 * 24) 100 hrow]; exact hw2)]
  exact convertLoop_nil y 0 (y.chan_freqs.length : Int) y.chan_freqs.length
    y.chan_freqs filename outdir _

/-- Concrete synthetic source with 4096*24 + 100 samples of 2 channels,
used to witness the end-to-end two-chunk scenario. -/
def yBig : Your :=
  { your_header :=
      { filename := "d/big_0001.fits"
        source_name := "B"
        foff := -1
        nbits := 8
        tsamp := 1/1000
        tstart := 58000
        ra_deg := 180
        dec_deg := -91/2
        native_nspectra := 4096 * 24 + 100
        dtype := "uint8" }
    chan_freqs := [1500, 1499]
    data := List.replicate (4096 * 24 + 100) [1, 2] }

/-- Witness for C7 on the concrete synthetic source. -/
theorem end_to_end_two_chunks_witness :
    yBig.your_header.native_nspectra = 4096 * 24 + 100 ∧
    yBig.data.length = 4096 * 24 + 100 ∧
    (∀ r ∈ yBig.data, r.length = yBig.chan_freqs.length) ∧
    2 ≤ yBig.chan_freqs.length ∧
    (chunks yBig.your_header.native_nspectra = [(0, 4096 * 24), (4096 * 24, 100)] ∧
     ∃ fo c1,
       make_sigproc_obj (resolvePath yBig none none) yBig yBig.chan_freqs.length
           yBig.chan_freqs = .ok fo ∧
       write_fil (yBig.get_data 0 (4096 * 24)) yBig yBig.chan_freqs.length
           yBig.chan_freqs none none none = .ok c1 ∧
       c1 = headerBytes fo ++ (yBig.get_data 0 (4096 * 24)).flatten ∧
       8192 < c1.length ∧
       write_fil (yBig.get_data (4096 * 24) 100) yBig yBig.chan_freqs.length
           yBig.chan_freqs none none (some c1) =
         .ok (c1 ++ (yBig.get_data (4096 * 24) 100).flatten) ∧
       convert yBig none none none none =
         .ok (some (c1 ++ (yBig.get_data (4096 * 24) 100).flatten))) :=
  ⟨rfl,
   by show (List.replicate (4096 * 24 + 100) ([1, 2] : List Rat)).length = 4096 * 24 + 100
      rw [List.length_replicate],
   fun r hr => by rw [List.eq_of_mem_replicate hr]; rfl,
   by decide,
   end_to_end_two_chunks yBig none none rfl
     (by show (List.replicate (4096 * 24 + 100) ([1, 2] : List Rat)).length = 4096 * 24 + 100
         rw [List.length_replicate])
     (fun r hr => by rw [List.eq_of_mem_replicate hr]; rfl) (by decide)⟩
